import Mathlib

/-!
# PallyOps Tracker — verification of the Operation Timing & Batch Status Engine

A shallow embedding of the core logic of the PallyOps tracker:

* `app/utils/constants.py` — role sequence registry and batch availability,
* `app/utils/timezone.py` — past-date (read-only) check,
* `app/models/operation.py` — the `OperationsLog` record and its derived
  properties (`status`, `on_time_percentage`),
* `app/schemas/operation.py` — the `DriverEnd` request validation,
* `app/services/operation_service.py` — start / end / end-driver /
  check-previous-role,
* `app/services/batch_service.py` — batch status calculation,
  batch initialization and the daily summary.

Modelling conventions:

* Calendar dates are `Nat` ordinals (as in Python's `date.toordinal`), so
  `isoweekday d = (d - 1) % 7 + 1`; timestamps and user ids are `Nat`.
* The database table `operations_log` is a `List OperationsLog` in insertion
  order; SQLAlchemy's `query(...).first()` is `List.find?`, `db.add` is
  appending, and an ORM in-place mutation followed by `commit` is a keyed
  replacement in the list.
* The impure clock (`get_current_time` / `get_current_date`) is passed in
  explicitly as `now` / `today` arguments.
* A percentage `round(100 * part / whole, 2)` is represented exactly as an
  integer count of hundredths of a percent (`pct2 part whole`; e.g. the
  Python float `94.67` is the integer `9467`). None of the values the
  claims touch sit on a rounding half-boundary, so the tie-breaking mode
  is irrelevant.
* Audit-only columns (`id`, `day_of_week`, `month`, `year`, `created_at`,
  `updated_at`) are derived metadata never read by the logic under
  verification and are omitted from the record.
* String literals drop the decorative quote characters the Python
  f-strings put around role names; the claims only depend on whether a
  warning is attached and which role it names.
-/

namespace PallyOps

/-! ## Role sequence registry and batches (`app/utils/constants.py`) -/

def ROLE_ORDER : List String :=
  ["Procurement",
   "Inventory QC - IN",
   "QC - Preppers",
   "Pre-stagers",
   "Extra Service Preppers",
   "Pickers and Packers",
   "QC-out",
   "Stock handler 1",
   "Stock handler 2",
   "Manifester",
   "Driver"]

def TOTAL_ROLES : Nat := ROLE_ORDER.length

def DRIVER_ROLE : String := "Driver"

def ALL_BATCHES : List String := ["A", "B", "C", "D"]

def RESTRICTED_BATCHES : List String := ["A", "B", "C"]

def RESTRICTED_DAYS : List Nat := [1, 4]

def get_role_index (role : String) : Int :=
  match ROLE_ORDER.findIdx? (· == role) with
  | some i => (i : Int)
  | none => -1

def get_previous_role (role : String) : Option String :=
  let index := get_role_index role
  if index ≤ 0 then none
  else ROLE_ORDER.get? (index - 1).toNat

/-- `date.isoweekday()` for a proleptic-Gregorian ordinal day number
(ordinal 1 is a Monday): 1 = Monday, …, 7 = Sunday. -/
def isoweekday (d : Nat) : Nat := (d - 1) % 7 + 1

def get_available_batches_for_date (d : Nat) : List String :=
  if isoweekday d ∈ RESTRICTED_DAYS then RESTRICTED_BATCHES
  else ALL_BATCHES

/-! ## Read-only dates (`app/utils/timezone.py`) -/

/-- `is_past_date(check_date)` — true iff the date is strictly before the
current server date (`today`, in the fixed operating timezone). -/
def is_past_date (check_date today : Nat) : Bool := check_date < today

/-! ## The `OperationsLog` record (`app/models/operation.py`) -/

structure OperationsLog where
  operation_date : Nat
  batch : String
  operation_role : String
  start_time : Option Nat
  end_time : Option Nat
  total_orders : Option Int
  on_time_deliveries : Option Int
  started_by_user_id : Option Nat
  completed_by_user_id : Option Nat
deriving DecidableEq, Repr

/-- A freshly inserted row: every nullable column is NULL. -/
def freshOp (d : Nat) (b r : String) : OperationsLog :=
  { operation_date := d
    batch := b
    operation_role := r
    start_time := none
    end_time := none
    total_orders := none
    on_time_deliveries := none
    started_by_user_id := none
    completed_by_user_id := none }

/-- `OperationsLog.status` — computed on read, never stored. -/
def OperationsLog.status (op : OperationsLog) : String :=
  if op.end_time.isSome then "COMPLETED"
  else if op.start_time.isSome then "IN_PROGRESS"
  else "PENDING"

/-- `round(a / b)` for integers with `b > 0` (so `⌊(2a + b) / (2b)⌋`). -/
def roundDiv (a b : Int) : Int := Int.fdiv (2 * a + b) (2 * b)

/-- `round(100 * part / whole, 2)` in integer hundredths of a percent. -/
def pct2 (part whole : Int) : Int := roundDiv (10000 * part) whole

/-- `OperationsLog.on_time_percentage` — Python truthiness on
`self.total_orders` plus the explicit `> 0` and `is not None` guards.
The percentage is in hundredths of a percent. -/
def OperationsLog.on_time_percentage (op : OperationsLog) : Option Int :=
  match op.total_orders, op.on_time_deliveries with
  | some t, some o => if t ≠ 0 ∧ t > 0 then some (pct2 o t) else none
  | _, _ => none

/-! ## `DriverEnd` request validation (`app/schemas/operation.py`) -/

structure DriverEnd where
  operation_date : Nat
  batch : String
  total_orders : Int
  on_time_deliveries : Int
deriving DecidableEq, Repr

/-- Pydantic validation of a `DriverEnd` request body: `ge=0` on both
counters, batch in the valid set, and the model validator
`validate_order_counts` rejecting `on_time_deliveries > total_orders`. -/
def DriverEnd.validate (d : Nat) (b : String) (total otd : Int) :
    Option DriverEnd :=
  if total < 0 then none
  else if otd < 0 then none
  else if b ∉ ALL_BATCHES then none
  else if otd > total then none
  else some ⟨d, b, total, otd⟩

/-! ## Store primitives (`OperationService.get_operation` and friends) -/

/-- Does the row match the `(operation_date, batch, operation_role)` key? -/
def matchesKey (d : Nat) (b r : String) (op : OperationsLog) : Bool :=
  op.operation_date == d && op.batch == b && op.operation_role == r

/-- `OperationService.get_operation` — `.filter(...).first()`. -/
def get_operation (state : List OperationsLog) (d : Nat) (b r : String) :
    Option OperationsLog :=
  state.find? (matchesKey d b r)

/-- Committing an ORM in-place mutation of the row keyed by `(d, b, r)`. -/
def replaceOp (state : List OperationsLog) (d : Nat) (b r : String)
    (newOp : OperationsLog) : List OperationsLog :=
  state.map (fun o => if matchesKey d b r o then newOp else o)

/-- `OperationService._get_or_create_operation`: fetch the row, or insert a
fresh one (`db.add` + `flush`). Returns the row and the updated table. -/
def _get_or_create_operation (state : List OperationsLog) (d : Nat)
    (b r : String) : OperationsLog × List OperationsLog :=
  match get_operation state d b r with
  | some op => (op, state)
  | none => (freshOp d b r, state ++ [freshOp d b r])

/-- `OperationService._get_incomplete_roles`: roles (other than the excluded
one) whose record is absent or lacks an `end_time`, in workflow order. -/
def _get_incomplete_roles (state : List OperationsLog) (d : Nat)
    (b : String) (excludeRole : String) : List String :=
  ROLE_ORDER.filter (fun role =>
    role != excludeRole &&
      match get_operation state d b role with
      | none => true
      | some op => op.end_time == none)

/-! ## Starting an operation (`OperationService.start_operation`) -/

inductive StartResult where
  | notAvailable
  | readOnly
  | alreadyStarted (startedBy : Option Nat) (startedAt : Nat)
  | started (warning : Option String)
deriving DecidableEq, Repr

/-- The previous-role warning block of `start_operation` (its lines 109-120):
a warning is attached iff the previous role exists, its record exists, and
that record has no `end_time`. -/
def start_warning (state : List OperationsLog) (d : Nat) (b r : String) :
    Option String :=
  match get_previous_role r with
  | none => none
  | some prev =>
    match get_operation state d b prev with
    | some prevOp =>
      if prevOp.end_time = none then
        some ("Previous operation " ++ prev ++ " not completed yet")
      else none
    | none => none

def start_operation (state : List OperationsLog) (today now : Nat)
    (d : Nat) (b r : String) (userId : Nat) :
    StartResult × List OperationsLog :=
  if b ∉ get_available_batches_for_date d then (.notAvailable, state)
  else if is_past_date d today then (.readOnly, state)
  else
    let gc := _get_or_create_operation state d b r
    let operation := gc.1
    let state1 := gc.2
    match operation.start_time with
    | some t => (.alreadyStarted operation.started_by_user_id t, state)
    | none =>
      let warning := start_warning state1 d b r
      let started := { operation with
        start_time := some now
        started_by_user_id := some userId }
      (.started warning, replaceOp state1 d b r started)

/-! ## Ending an operation (`OperationService.end_operation`) -/

inductive EndResult where
  | readOnly
  | notStarted
  | alreadyCompleted
  | completed (warning : Option String)
deriving DecidableEq, Repr

def end_operation (state : List OperationsLog) (today now : Nat)
    (d : Nat) (b r : String) (userId : Nat) :
    EndResult × List OperationsLog :=
  if is_past_date d today then (.readOnly, state)
  else
    match get_operation state d b r with
    | none => (.notStarted, state)
    | some operation =>
      if operation.end_time.isSome then (.alreadyCompleted, state)
      else if operation.start_time = none then (.notStarted, state)
      else
        let ended := { operation with
          end_time := some now
          completed_by_user_id := some userId }
        (.completed none, replaceOp state d b r ended)

/-! ## Ending the Driver operation (`OperationService.end_driver_operation`) -/

def end_driver_operation (state : List OperationsLog) (today now : Nat)
    (data : DriverEnd) (userId : Nat) :
    EndResult × List OperationsLog :=
  if is_past_date data.operation_date today then (.readOnly, state)
  else
    match get_operation state data.operation_date data.batch DRIVER_ROLE with
    | none => (.notStarted, state)
    | some operation =>
      if operation.end_time.isSome then (.alreadyCompleted, state)
      else if operation.start_time = none then (.notStarted, state)
      else
        let incomplete :=
          _get_incomplete_roles state data.operation_date data.batch DRIVER_ROLE
        let warning : Option String :=
          if incomplete ≠ [] then
            some ("Roles not completed: " ++ String.intercalate ", " incomplete)
          else none
        let ended := { operation with
          end_time := some now
          completed_by_user_id := some userId
          total_orders := some data.total_orders
          on_time_deliveries := some data.on_time_deliveries }
        (.completed warning,
          replaceOp state data.operation_date data.batch DRIVER_ROLE ended)

/-- The `/operations/end-driver` endpoint: pydantic validation of the raw
request body happens before the service runs; a validation failure is a
422 with no service call and hence no write. -/
inductive DriverRequestResult where
  | validationError
  | serviceResult (r : EndResult)
deriving DecidableEq, Repr

def end_driver_request (state : List OperationsLog) (today now : Nat)
    (d : Nat) (b : String) (total otd : Int) (userId : Nat) :
    DriverRequestResult × List OperationsLog :=
  match DriverEnd.validate d b total otd with
  | none => (.validationError, state)
  | some data =>
    let res := end_driver_operation state today now data userId
    (.serviceResult res.1, res.2)

/-! ## Previous-role pre-flight check (`OperationService.check_previous_role`) -/

structure PreviousRoleCheck where
  current_role : String
  previous_role : Option String
  is_previous_completed : Bool
  show_warning : Bool
  warning_message : Option String
deriving DecidableEq, Repr

def check_previous_role (state : List OperationsLog) (d : Nat)
    (b role : String) : PreviousRoleCheck :=
  match get_previous_role role with
  | none =>
    { current_role := role
      previous_role := none
      is_previous_completed := true
      show_warning := false
      warning_message := none }
  | some prev =>
    let prevOp := get_operation state d b prev
    let isCompleted :=
      match prevOp with
      | some op => op.end_time.isSome
      | none => false
    let showWarning := !isCompleted
    let warningMessage : Option String :=
      if showWarning then
        some ("Previous operation " ++ prev ++
          " not completed yet. Continue anyway?")
      else none
    { current_role := role
      previous_role := some prev
      is_previous_completed := isCompleted
      show_warning := showWarning
      warning_message := warningMessage }

/-! ## Batch status (`BatchService._calculate_batch_status`) -/

structure BatchStatusResponse where
  batch : String
  status : String
  started_count : Nat
  completed_count : Nat
  total_roles : Nat
  progress_percentage : Int
deriving DecidableEq, Repr

/-- The first count query: rows of the slot with `start_time` set. -/
def started_count_q (state : List OperationsLog) (d : Nat) (b : String) : Nat :=
  (state.filter (fun o =>
    o.operation_date == d && o.batch == b && o.start_time.isSome)).length

/-- The second count query: rows of the slot with `end_time` set. -/
def completed_count_q (state : List OperationsLog) (d : Nat) (b : String) : Nat :=
  (state.filter (fun o =>
    o.operation_date == d && o.batch == b && o.end_time.isSome)).length

def _calculate_batch_status (state : List OperationsLog) (d : Nat)
    (b : String) : BatchStatusResponse :=
  let started_count := started_count_q state d b
  let completed_count := completed_count_q state d b
  let status :=
    if started_count = 0 then "RED"
    else if completed_count ≥ TOTAL_ROLES then "GREEN"
    else "YELLOW"
  let progress_percentage := pct2 (completed_count : Int) (TOTAL_ROLES : Int)
  { batch := b
    status := status
    started_count := started_count
    completed_count := completed_count
    total_roles := TOTAL_ROLES
    progress_percentage := progress_percentage }

/-! ## Batch initialization (`BatchService.initialize_batch`) -/

def is_batch_available (d : Nat) (b : String) : Bool :=
  b ∈ get_available_batches_for_date d

/-- One iteration of the `for role in ROLE_ORDER` loop: insert a fresh row
unless one already exists for this role. -/
def initStep (d : Nat) (b : String) (state : List OperationsLog)
    (role : String) : List OperationsLog :=
  match get_operation state d b role with
  | some _ => state
  | none => state ++ [freshOp d b role]

def initialize_batch (state : List OperationsLog) (d : Nat) (b : String) :
    Bool × List OperationsLog :=
  if ¬ is_batch_available d b then (false, state)
  else (true, ROLE_ORDER.foldl (initStep d b) state)

/-! ## Daily summary (`BatchService.get_daily_summary`) -/

/-- What one batch's Driver record adds to `(total_orders, total_on_time)`:
the body of the `if driver_op and driver_op.total_orders:` block, with
Python truthiness on the two nullable integer columns. -/
def driverContribution (driverOp : Option OperationsLog) : Int × Int :=
  match driverOp with
  | none => (0, 0)
  | some op =>
    match op.total_orders with
    | none => (0, 0)
    | some t =>
      if t ≠ 0 then
        match op.on_time_deliveries with
        | none => (t, 0)
        | some o => if o ≠ 0 then (t, o) else (t, 0)
      else (0, 0)

structure DailySummary where
  total_batches : Nat
  completed_batches : Nat
  total_roles : Nat
  completed_roles : Nat
  overall_progress : Int
  total_orders_delivered : Option Int
  total_on_time_deliveries : Option Int
  overall_on_time_percentage : Option Int
deriving DecidableEq, Repr

/-- The `total_orders` accumulator of the daily-summary loop. -/
def daily_total_orders (state : List OperationsLog) (d : Nat) : Int :=
  ((get_available_batches_for_date d).map (fun b =>
    (driverContribution (get_operation state d b DRIVER_ROLE)).1)).sum

/-- The `total_on_time` accumulator of the daily-summary loop. -/
def daily_total_on_time (state : List OperationsLog) (d : Nat) : Int :=
  ((get_available_batches_for_date d).map (fun b =>
    (driverContribution (get_operation state d b DRIVER_ROLE)).2)).sum

def get_daily_summary (state : List OperationsLog) (d : Nat) : DailySummary :=
  let available_batches := get_available_batches_for_date d
  let total_batches := available_batches.length
  let completed_batches :=
    (available_batches.filter (fun b =>
      (_calculate_batch_status state d b).status == "GREEN")).length
  let total_completed_roles :=
    (available_batches.map (fun b =>
      (_calculate_batch_status state d b).completed_count)).sum
  let total_orders := daily_total_orders state d
  let total_on_time := daily_total_on_time state d
  let total_role_slots := total_batches * TOTAL_ROLES
  let overall_progress :=
    if total_role_slots > 0 then
      pct2 (total_completed_roles : Int) (total_role_slots : Int)
    else 0
  let on_time_percentage : Option Int :=
    if total_orders > 0 then some (pct2 total_on_time total_orders)
    else none
  { total_batches := total_batches
    completed_batches := completed_batches
    total_roles := total_role_slots
    completed_roles := total_completed_roles
    overall_progress := overall_progress
    total_orders_delivered := if total_orders > 0 then some total_orders else none
    total_on_time_deliveries := if total_on_time > 0 then some total_on_time else none
    overall_on_time_percentage := on_time_percentage }

/-! ## Store invariants -/

/-- The `(operation_date, batch, operation_role)` key of a row. -/
def keyOf (op : OperationsLog) : Nat × String × String :=
  (op.operation_date, op.batch, op.operation_role)

/-- The `unique_operation` constraint: pairwise-distinct keys. -/
def UniqueKeys (state : List OperationsLog) : Prop :=
  state.Pairwise (fun a b => keyOf a ≠ keyOf b)

/-- Every completed row was started (maintained by the service layer:
`end_time` is only ever written to a row whose `start_time` is set). -/
def WellFormed (state : List OperationsLog) : Prop :=
  ∀ op ∈ state, op.end_time.isSome → op.start_time.isSome

/-- Every stored role name is from the registry (the `valid_role` check
constraint). -/
def ValidRoles (state : List OperationsLog) : Prop :=
  ∀ op ∈ state, op.operation_role ∈ ROLE_ORDER

/-! ## Basic lemmas about the store primitives -/

lemma matchesKey_eq_true_iff (d : Nat) (b r : String) (op : OperationsLog) :
    matchesKey d b r op = true ↔ keyOf op = (d, b, r) := by
  simp [matchesKey, keyOf, Prod.ext_iff, and_assoc]

lemma get_operation_eq_none_iff (state : List OperationsLog) (d : Nat)
    (b r : String) :
    get_operation state d b r = none ↔ ∀ op ∈ state, keyOf op ≠ (d, b, r) := by
  constructor
  · intro h op hop
    have := List.find?_eq_none.mp h op hop
    simpa [matchesKey_eq_true_iff] using this
  · intro h
    apply List.find?_eq_none.mpr
    intro op hop
    simpa [matchesKey_eq_true_iff] using h op hop

lemma get_operation_mem {state : List OperationsLog} {d : Nat} {b r : String}
    {op : OperationsLog} (h : get_operation state d b r = some op) :
    op ∈ state :=
  List.mem_of_find?_eq_some h

lemma get_operation_key {state : List OperationsLog} {d : Nat} {b r : String}
    {op : OperationsLog} (h : get_operation state d b r = some op) :
    keyOf op = (d, b, r) :=
  (matchesKey_eq_true_iff d b r op).mp (List.find?_some h)

lemma get_operation_append_some {state : List OperationsLog} {d : Nat}
    {b r : String} {op : OperationsLog} (t : List OperationsLog)
    (h : get_operation state d b r = some op) :
    get_operation (state ++ t) d b r = some op := by
  simp [get_operation, List.find?_append]
  simp [get_operation] at h
  simp [h]

lemma get_operation_append_none {state : List OperationsLog} {d : Nat}
    {b r : String} (t : List OperationsLog)
    (h : get_operation state d b r = none) :
    get_operation (state ++ t) d b r = get_operation t d b r := by
  simp only [get_operation, List.find?_append]
  simp only [get_operation] at h
  simp [h]

lemma keyOf_freshOp (d : Nat) (b r : String) : keyOf (freshOp d b r) = (d, b, r) :=
  rfl

lemma get_operation_singleton_fresh (d : Nat) (b r : String) :
    get_operation [freshOp d b r] d b r = some (freshOp d b r) := by
  simp [get_operation, List.find?, matchesKey, freshOp]

/-- Looking up a different role is unaffected by inserting a fresh row. -/
lemma get_operation_append_fresh_ne {state : List OperationsLog} {d d' : Nat}
    {b r b' r' : String} (hne : r' ≠ r) :
    get_operation (state ++ [freshOp d b r]) d' b' r' =
      get_operation state d' b' r' := by
  cases h : get_operation state d' b' r' with
  | some op => exact get_operation_append_some _ h
  | none =>
    rw [get_operation_append_none _ h]
    have hm : matchesKey d' b' r' (freshOp d b r) = false := by
      rw [← Bool.not_eq_true, matchesKey_eq_true_iff, keyOf_freshOp]
      intro hc
      simp only [Prod.mk.injEq] at hc
      exact hne hc.2.2.symm
    simp [get_operation, List.find?, hm]

/-! ## Lemmas about `replaceOp` -/

lemma keyOf_replace_fun {d : Nat} {b r : String} {newOp : OperationsLog}
    (hkey : keyOf newOp = (d, b, r)) (o : OperationsLog) :
    keyOf (if matchesKey d b r o then newOp else o) = keyOf o := by
  by_cases h : matchesKey d b r o
  · rw [if_pos h, hkey, ← (matchesKey_eq_true_iff d b r o).mp h]
  · rw [if_neg h]

lemma UniqueKeys.replaceOp {state : List OperationsLog} {d : Nat}
    {b r : String} {newOp : OperationsLog} (hU : UniqueKeys state)
    (hkey : keyOf newOp = (d, b, r)) :
    UniqueKeys (replaceOp state d b r newOp) := by
  unfold PallyOps.replaceOp UniqueKeys
  rw [List.pairwise_map]
  exact hU.imp fun hab => by
    rwa [keyOf_replace_fun hkey, keyOf_replace_fun hkey]

lemma get_operation_replaceOp_self {state : List OperationsLog} {d : Nat}
    {b r : String} {op newOp : OperationsLog}
    (h : get_operation state d b r = some op) (hkey : keyOf newOp = (d, b, r)) :
    get_operation (replaceOp state d b r newOp) d b r = some newOp := by
  induction state with
  | nil => simp [get_operation] at h
  | cons hd tl ih =>
    by_cases hhd : matchesKey d b r hd
    · simp [replaceOp, get_operation, List.find?, hhd,
        (matchesKey_eq_true_iff d b r newOp).mpr hkey]
    · simp only [get_operation, List.find?, hhd] at h
      have := ih (by simpa [get_operation] using h)
      simpa [replaceOp, get_operation, List.find?, hhd] using this

/-- Looking up a different key is unaffected by a keyed replacement. -/
lemma get_operation_replaceOp_ne {state : List OperationsLog} {d d' : Nat}
    {b r b' r' : String} {newOp : OperationsLog}
    (hkey : keyOf newOp = (d, b, r)) (hne : (d', b', r') ≠ (d, b, r)) :
    get_operation (replaceOp state d b r newOp) d' b' r' =
      get_operation state d' b' r' := by
  induction state with
  | nil => simp [replaceOp, get_operation]
  | cons hd tl ih =>
    by_cases hhd : matchesKey d b r hd
    · have hkhd : keyOf hd = (d, b, r) := (matchesKey_eq_true_iff d b r hd).mp hhd
      have h1 : matchesKey d' b' r' newOp = false := by
        rw [← Bool.not_eq_true, matchesKey_eq_true_iff, hkey]
        exact fun hc => hne hc.symm
      have h2 : matchesKey d' b' r' hd = false := by
        rw [← Bool.not_eq_true, matchesKey_eq_true_iff, hkhd]
        exact fun hc => hne hc.symm
      simp only [replaceOp, List.map, if_pos hhd, get_operation, List.find?, h1, h2]
      exact ih
    · simp only [replaceOp, List.map, if_neg hhd, get_operation, List.find?]
      cases hm : matchesKey d' b' r' hd
      · exact ih
      · rfl

/-! ## `UniqueKeys` is preserved by inserting an absent key -/

lemma UniqueKeys.append_fresh {state : List OperationsLog} {d : Nat}
    {b r : String} (hU : UniqueKeys state)
    (habs : get_operation state d b r = none) :
    UniqueKeys (state ++ [freshOp d b r]) := by
  rw [UniqueKeys, List.pairwise_append]
  refine ⟨hU, by simp, ?_⟩
  intro a ha x hx
  simp only [List.mem_singleton] at hx
  subst hx
  rw [keyOf_freshOp]
  exact (get_operation_eq_none_iff state d b r).mp habs a ha

/-! ## Properties of the role registry -/

lemma get_previous_role_mem {r prev : String}
    (h : get_previous_role r = some prev) : r ∈ ROLE_ORDER := by
  by_contra hr
  have hidx : ROLE_ORDER.findIdx? (· == r) = none := by
    rw [List.findIdx?_eq_none_iff]
    intro x hx
    simp only [beq_eq_false_iff_ne, ne_eq]
    exact fun hxr => hr (hxr ▸ hx)
  simp [get_previous_role, get_role_index, hidx] at h

lemma get_previous_role_ne {r prev : String}
    (h : get_previous_role r = some prev) : prev ≠ r := by
  have hr := get_previous_role_mem h
  fin_cases hr <;>
    simp_all [get_previous_role, get_role_index, ROLE_ORDER] <;>
    (intro hc; subst hc; exact absurd h (by decide))

/-! ## Equation lemmas for `start_operation` -/

lemma start_operation_not_available {state : List OperationsLog}
    {today now d : Nat} {b r : String} {u : Nat}
    (h1 : b ∉ get_available_batches_for_date d) :
    start_operation state today now d b r u = (.notAvailable, state) := by
  rw [start_operation, if_pos h1]

lemma start_operation_read_only {state : List OperationsLog}
    {today now d : Nat} {b r : String} {u : Nat}
    (h1 : b ∈ get_available_batches_for_date d)
    (h2 : is_past_date d today = true) :
    start_operation state today now d b r u = (.readOnly, state) := by
  rw [start_operation, if_neg (not_not_intro h1), if_pos h2]

lemma start_operation_already_started {state : List OperationsLog}
    {today now d : Nat} {b r : String} {u : Nat} {op : OperationsLog} {t : Nat}
    (h1 : b ∈ get_available_batches_for_date d)
    (h2 : is_past_date d today = false)
    (hg : get_operation state d b r = some op)
    (hs : op.start_time = some t) :
    start_operation state today now d b r u =
      (.alreadyStarted op.started_by_user_id t, state) := by
  rw [start_operation, if_neg (not_not_intro h1), if_neg (by simp [h2])]
  simp only [_get_or_create_operation, hg, hs]

lemma start_operation_starts_existing {state : List OperationsLog}
    {today now d : Nat} {b r : String} {u : Nat} {op : OperationsLog}
    (h1 : b ∈ get_available_batches_for_date d)
    (h2 : is_past_date d today = false)
    (hg : get_operation state d b r = some op)
    (hs : op.start_time = none) :
    start_operation state today now d b r u =
      (.started (start_warning state d b r),
        replaceOp state d b r
          { op with start_time := some now, started_by_user_id := some u }) := by
  rw [start_operation, if_neg (not_not_intro h1), if_neg (by simp [h2])]
  simp only [_get_or_create_operation, hg, hs]

lemma start_operation_starts_fresh {state : List OperationsLog}
    {today now d : Nat} {b r : String} {u : Nat}
    (h1 : b ∈ get_available_batches_for_date d)
    (h2 : is_past_date d today = false)
    (hg : get_operation state d b r = none) :
    start_operation state today now d b r u =
      (.started (start_warning (state ++ [freshOp d b r]) d b r),
        replaceOp (state ++ [freshOp d b r]) d b r
          { freshOp d b r with
            start_time := some now, started_by_user_id := some u }) := by
  rw [start_operation, if_neg (not_not_intro h1), if_neg (by simp [h2])]
  simp only [_get_or_create_operation, hg, freshOp]

/-- Inserting the fresh row for the role being started does not change the
previous-role lookup, hence not the warning. -/
lemma start_warning_append_fresh (state : List OperationsLog) (d : Nat)
    (b r : String) :
    start_warning (state ++ [freshOp d b r]) d b r =
      start_warning state d b r := by
  cases hp : get_previous_role r with
  | none => simp [start_warning, hp]
  | some prev =>
    simp only [start_warning, hp]
    rw [get_operation_append_fresh_ne (get_previous_role_ne hp)]

/-! ## Equation lemmas for `end_operation` -/

lemma end_operation_read_only {state : List OperationsLog}
    {today now d : Nat} {b r : String} {u : Nat}
    (h : is_past_date d today = true) :
    end_operation state today now d b r u = (.readOnly, state) := by
  rw [end_operation, if_pos h]

lemma end_operation_missing {state : List OperationsLog}
    {today now d : Nat} {b r : String} {u : Nat}
    (h2 : is_past_date d today = false)
    (hg : get_operation state d b r = none) :
    end_operation state today now d b r u = (.notStarted, state) := by
  rw [end_operation, if_neg (by simp [h2])]
  simp only [hg]

lemma end_operation_already_completed {state : List OperationsLog}
    {today now d : Nat} {b r : String} {u : Nat} {op : OperationsLog}
    (h2 : is_past_date d today = false)
    (hg : get_operation state d b r = some op)
    (he : op.end_time.isSome = true) :
    end_operation state today now d b r u = (.alreadyCompleted, state) := by
  rw [end_operation, if_neg (by simp [h2])]
  simp only [hg, he, if_pos]

lemma end_operation_not_started {state : List OperationsLog}
    {today now d : Nat} {b r : String} {u : Nat} {op : OperationsLog}
    (h2 : is_past_date d today = false)
    (hg : get_operation state d b r = some op)
    (he : op.end_time = none) (hs : op.start_time = none) :
    end_operation state today now d b r u = (.notStarted, state) := by
  rw [end_operation, if_neg (by simp [h2])]
  simp [hg, he, hs]

lemma end_operation_completes {state : List OperationsLog}
    {today now d : Nat} {b r : String} {u : Nat} {op : OperationsLog} {t : Nat}
    (h2 : is_past_date d today = false)
    (hg : get_operation state d b r = some op)
    (he : op.end_time = none) (hs : op.start_time = some t) :
    end_operation state today now d b r u =
      (.completed none,
        replaceOp state d b r
          { op with end_time := some now, completed_by_user_id := some u }) := by
  rw [end_operation, if_neg (by simp [h2])]
  simp [hg, he, hs]

/-! ## Equation lemmas for `end_driver_operation` -/

lemma end_driver_read_only {state : List OperationsLog} {today now : Nat}
    {data : DriverEnd} {u : Nat}
    (h : is_past_date data.operation_date today = true) :
    end_driver_operation state today now data u = (.readOnly, state) := by
  rw [end_driver_operation, if_pos h]

lemma end_driver_missing {state : List OperationsLog} {today now : Nat}
    {data : DriverEnd} {u : Nat}
    (h2 : is_past_date data.operation_date today = false)
    (hg : get_operation state data.operation_date data.batch DRIVER_ROLE = none) :
    end_driver_operation state today now data u = (.notStarted, state) := by
  rw [end_driver_operation, if_neg (by simp [h2])]
  simp only [hg]

lemma end_driver_already_completed {state : List OperationsLog}
    {today now : Nat} {data : DriverEnd} {u : Nat} {op : OperationsLog}
    (h2 : is_past_date data.operation_date today = false)
    (hg : get_operation state data.operation_date data.batch DRIVER_ROLE = some op)
    (he : op.end_time.isSome = true) :
    end_driver_operation state today now data u = (.alreadyCompleted, state) := by
  rw [end_driver_operation, if_neg (by simp [h2])]
  simp only [hg, he, if_pos]

lemma end_driver_not_started {state : List OperationsLog} {today now : Nat}
    {data : DriverEnd} {u : Nat} {op : OperationsLog}
    (h2 : is_past_date data.operation_date today = false)
    (hg : get_operation state data.operation_date data.batch DRIVER_ROLE = some op)
    (he : op.end_time = none) (hs : op.start_time = none) :
    end_driver_operation state today now data u = (.notStarted, state) := by
  rw [end_driver_operation, if_neg (by simp [h2])]
  simp [hg, he, hs]

lemma end_driver_completes {state : List OperationsLog} {today now : Nat}
    {data : DriverEnd} {u : Nat} {op : OperationsLog} {t : Nat}
    (h2 : is_past_date data.operation_date today = false)
    (hg : get_operation state data.operation_date data.batch DRIVER_ROLE = some op)
    (he : op.end_time = none) (hs : op.start_time = some t) :
    end_driver_operation state today now data u =
      (.completed
        (if _get_incomplete_roles state data.operation_date data.batch
            DRIVER_ROLE ≠ [] then
          some ("Roles not completed: " ++ String.intercalate ", "
            (_get_incomplete_roles state data.operation_date data.batch
              DRIVER_ROLE))
        else none),
        replaceOp state data.operation_date data.batch DRIVER_ROLE
          { op with
            end_time := some now
            completed_by_user_id := some u
            total_orders := some data.total_orders
            on_time_deliveries := some data.on_time_deliveries }) := by
  rw [end_driver_operation, if_neg (by simp [h2])]
  simp [hg, he, hs]

/-! ## Lemmas about `initialize_batch` -/

lemma initStep_unique {st : List OperationsLog} {d : Nat} {b : String}
    (hU : UniqueKeys st) (role : String) :
    UniqueKeys (initStep d b st role) := by
  unfold initStep
  cases hg : get_operation st d b role with
  | some op => exact hU
  | none => exact hU.append_fresh hg

lemma foldl_initStep_unique {st : List OperationsLog} {d : Nat} {b : String}
    (roles : List String) (hU : UniqueKeys st) :
    UniqueKeys (roles.foldl (initStep d b) st) := by
  induction roles generalizing st with
  | nil => exact hU
  | cons hd tl ih => exact ih (initStep_unique hU hd)

/-- A present key survives one init step unchanged. -/
lemma get_operation_initStep_some {st : List OperationsLog} {d : Nat}
    {b r : String} {op : OperationsLog}
    (h : get_operation st d b r = some op) (role : String) :
    get_operation (initStep d b st role) d b r = some op := by
  unfold initStep
  cases hg : get_operation st d b role with
  | some _ => exact h
  | none => exact get_operation_append_some _ h

lemma get_operation_foldl_initStep_some {st : List OperationsLog} {d : Nat}
    {b r : String} {op : OperationsLog} (roles : List String)
    (h : get_operation st d b r = some op) :
    get_operation (roles.foldl (initStep d b) st) d b r = some op := by
  induction roles generalizing st with
  | nil => exact h
  | cons hd tl ih => exact ih (get_operation_initStep_some h hd)

/-- An absent key stays absent through an init step for a different role. -/
lemma get_operation_initStep_none {st : List OperationsLog} {d : Nat}
    {b r : String} (h : get_operation st d b r = none) {role : String}
    (hne : r ≠ role) :
    get_operation (initStep d b st role) d b r = none := by
  unfold initStep
  cases hg : get_operation st d b role with
  | some _ => exact h
  | none => rw [get_operation_append_fresh_ne hne, h]

/-- After the loop, every role in the list has a row; a role that had no
row before gets exactly the fresh PENDING row. -/
lemma get_operation_foldl_initStep_covers {d : Nat} {b : String}
    (roles : List String) (st : List OperationsLog) (r : String)
    (hr : r ∈ roles) :
    (get_operation st d b r = none →
      get_operation (roles.foldl (initStep d b) st) d b r =
        some (freshOp d b r)) ∧
    (∀ op, get_operation st d b r = some op →
      get_operation (roles.foldl (initStep d b) st) d b r = some op) := by
  induction roles generalizing st with
  | nil => cases hr
  | cons hd tl ih =>
    by_cases hhd : r = hd
    · subst hhd
      constructor
      · intro hnone
        have hstep : get_operation (initStep d b st r) d b r =
            some (freshOp d b r) := by
          unfold initStep
          rw [hnone, get_operation_append_none _ hnone,
            get_operation_singleton_fresh]
        exact get_operation_foldl_initStep_some tl hstep
      · intro op hop
        have hstep : get_operation (initStep d b st r) d b r = some op :=
          get_operation_initStep_some hop r
        exact get_operation_foldl_initStep_some tl hstep
    · have htl : r ∈ tl := by
        cases hr with
        | head => exact absurd rfl hhd
        | tail _ h => exact h
      constructor
      · intro hnone
        exact (ih (initStep d b st hd) htl).1
          (get_operation_initStep_none hnone hhd)
      · intro op hop
        exact (ih (initStep d b st hd) htl).2 op
          (get_operation_initStep_some hop hd)

/-- The loop is a no-op when every role already has a row. -/
lemma foldl_initStep_id {d : Nat} {b : String} (roles : List String)
    (st : List OperationsLog)
    (h : ∀ r ∈ roles, (get_operation st d b r).isSome) :
    roles.foldl (initStep d b) st = st := by
  induction roles with
  | nil => rfl
  | cons hd tl ih =>
    have hhd : (get_operation st d b hd).isSome := h hd (by simp)
    have hstep : initStep d b st hd = st := by
      unfold initStep
      cases hg : get_operation st d b hd with
      | some _ => rfl
      | none => rw [hg] at hhd; simp at hhd
    rw [List.foldl_cons, hstep]
    exact ih fun r hr => h r (List.mem_cons_of_mem _ hr)

/-! ## Counting lemmas -/

/-- Under the uniqueness constraint, the rows matching a present key are
exactly the one `find?` returns. -/
lemma filter_matchesKey_eq_singleton {state : List OperationsLog} {d : Nat}
    {b r : String} {op : OperationsLog} (hU : UniqueKeys state)
    (hg : get_operation state d b r = some op) :
    state.filter (matchesKey d b r) = [op] := by
  induction state with
  | nil => simp [get_operation] at hg
  | cons hd tl ih =>
    rw [UniqueKeys, List.pairwise_cons] at hU
    by_cases hhd : matchesKey d b r hd
    · have hop : op = hd := by
        simp only [get_operation, List.find?, hhd] at hg
        exact (Option.some.injEq _ _ ▸ hg).symm
      subst hop
      have htl : tl.filter (matchesKey d b r) = [] := by
        apply List.filter_eq_nil_iff.mpr
        intro x hx
        have hkey : keyOf op ≠ keyOf x := hU.1 x hx
        rw [(matchesKey_eq_true_iff d b r op).mp hhd] at hkey
        rw [matchesKey_eq_true_iff]
        exact fun hc => hkey hc.symm
      simp [List.filter, hhd, htl]
    · simp only [get_operation, List.find?, hhd] at hg
      have := ih hU.2 (by simpa [get_operation] using hg)
      simpa [List.filter, hhd] using this

/-- Under uniqueness and the valid-role constraint, at most `TOTAL_ROLES`
rows of one `(date, batch)` slot satisfy any additional predicate. -/
lemma filter_batch_le_total {state : List OperationsLog} (hU : UniqueKeys state)
    (hV : ValidRoles state) (d : Nat) (b : String) (p : OperationsLog → Bool) :
    (state.filter (fun o =>
      o.operation_date == d && o.batch == b && p o)).length ≤ TOTAL_ROLES := by
  set l := state.filter (fun o =>
    o.operation_date == d && o.batch == b && p o) with hl
  have hsl : l.Sublist state := List.filter_sublist state
  have hPl : l.Pairwise (fun a c => keyOf a ≠ keyOf c) := hU.sublist hsl
  have hfacts : ∀ o ∈ l, o.operation_date = d ∧ o.batch = b ∧ o ∈ state := by
    intro o ho
    rw [hl, List.mem_filter] at ho
    have hq := ho.2
    simp only [Bool.and_eq_true, beq_iff_eq] at hq
    exact ⟨hq.1.1, hq.1.2, ho.1⟩
  have hnodup : (l.map OperationsLog.operation_role).Nodup := by
    rw [List.Nodup, List.pairwise_map]
    refine hPl.imp_of_mem ?_
    intro a c ha hc hkey hrole
    apply hkey
    have hfa := hfacts a ha
    have hfc := hfacts c hc
    rw [keyOf, keyOf, hfa.1, hfa.2.1, hfc.1, hfc.2.1, hrole]
  have hsubset : (l.map OperationsLog.operation_role) ⊆ ROLE_ORDER := by
    intro x hx
    rw [List.mem_map] at hx
    obtain ⟨o, ho, rfl⟩ := hx
    exact hV o (hfacts o ho).2.2
  have := (hnodup.subperm hsubset).length_le
  simpa using this

/-- Under `WellFormed`, the completed rows of a slot are a subset of the
started rows, so the counts are ordered. -/
lemma completed_le_started {state : List OperationsLog} (hW : WellFormed state)
    (d : Nat) (b : String) :
    (state.filter (fun o =>
      o.operation_date == d && o.batch == b && o.end_time.isSome)).length ≤
    (state.filter (fun o =>
      o.operation_date == d && o.batch == b && o.start_time.isSome)).length := by
  rw [← List.countP_eq_length_filter, ← List.countP_eq_length_filter]
  apply List.countP_mono_left
  intro o ho hq
  simp only [Bool.and_eq_true] at hq ⊢
  exact ⟨hq.1, hW o ho hq.2⟩

/-! ## Projection lemmas -/

lemma calc_status_eq (state : List OperationsLog) (d : Nat) (b : String) :
    (_calculate_batch_status state d b).status =
      (if started_count_q state d b = 0 then "RED"
       else if completed_count_q state d b ≥ TOTAL_ROLES then "GREEN"
       else "YELLOW") := rfl

lemma calc_started_eq (state : List OperationsLog) (d : Nat) (b : String) :
    (_calculate_batch_status state d b).started_count =
      started_count_q state d b := rfl

lemma calc_completed_eq (state : List OperationsLog) (d : Nat) (b : String) :
    (_calculate_batch_status state d b).completed_count =
      completed_count_q state d b := rfl

lemma calc_progress_eq (state : List OperationsLog) (d : Nat) (b : String) :
    (_calculate_batch_status state d b).progress_percentage =
      pct2 (completed_count_q state d b : Int) (TOTAL_ROLES : Int) := rfl

lemma calc_total_roles_eq (state : List OperationsLog) (d : Nat) (b : String) :
    (_calculate_batch_status state d b).total_roles = TOTAL_ROLES := rfl

lemma daily_orders_eq (state : List OperationsLog) (d : Nat) :
    (get_daily_summary state d).total_orders_delivered =
      (if daily_total_orders state d > 0 then some (daily_total_orders state d)
       else none) := rfl

lemma daily_on_time_eq (state : List OperationsLog) (d : Nat) :
    (get_daily_summary state d).total_on_time_deliveries =
      (if daily_total_on_time state d > 0 then some (daily_total_on_time state d)
       else none) := rfl

/-! ## The derived status, as the specification words it -/

/-- The spec's reading of the derived status, clause by clause: PENDING if
`start_time` is null; IN_PROGRESS if `start_time` is set and `end_time` is
null; COMPLETED if `end_time` is set. -/
def status_spec (op : OperationsLog) : String :=
  if op.start_time = none then "PENDING"
  else if op.end_time = none then "IN_PROGRESS"
  else "COMPLETED"

/-! ## Claim theorems -/

/-- C3: for every OperationRecord (in which a set `end_time` implies a set
`start_time`, as the service layer guarantees), the derived status is
PENDING iff `start_time` is null, IN_PROGRESS iff `start_time` is set and
`end_time` null, COMPLETED iff `end_time` is set — i.e. the computed
`status` property agrees with the spec's clause-by-clause reading — and it
is a pure function of the two nullable timestamps alone. -/
theorem C3_status_pure_function (op : OperationsLog)
    (h : op.end_time.isSome → op.start_time.isSome) :
    op.status = status_spec op ∧
    (op.start_time = none → op.status = "PENDING") ∧
    (∀ t, op.start_time = some t → op.end_time = none →
      op.status = "IN_PROGRESS") ∧
    (∀ e, op.end_time = some e → op.status = "COMPLETED") ∧
    (∀ op' : OperationsLog, op.start_time = op'.start_time →
      op.end_time = op'.end_time → op.status = op'.status) := by
  refine ⟨?_, ?_, ?_, ?_, ?_⟩
  · cases hs : op.start_time <;> cases he : op.end_time <;>
      simp_all [OperationsLog.status, status_spec]
  · intro hs
    cases he : op.end_time <;> simp_all [OperationsLog.status]
  · intro t hs he
    simp [OperationsLog.status, hs, he]
  · intro e he
    simp [OperationsLog.status, he]
  · intro op' h1 h2
    simp only [OperationsLog.status, h1, h2]

/-- Witness for C3 at a concrete record. -/
theorem C3_status_pure_function_witness :
    (freshOp 5 "A" "Procurement").status =
      status_spec (freshOp 5 "A" "Procurement") :=
  (C3_status_pure_function (freshOp 5 "A" "Procurement") (by decide)).1

/-- C8: the Driver completion with `total_orders = 150` and
`on_time_deliveries = 142` computes `on_time_percentage = 94.67` (9467
hundredths); the general formula is `round(100 * on_time / total, 2)`
whenever `total_orders > 0`; a request with `on_time_deliveries = 151 >
total_orders = 150` is rejected by validation before the service runs, so
the store is untouched; and any validated request satisfies
`0 ≤ on_time_deliveries ≤ total_orders`. -/
theorem C8_driver_statistics :
    (∀ op : OperationsLog, op.total_orders = some 150 →
      op.on_time_deliveries = some 142 → op.on_time_percentage = some 9467) ∧
    (∀ (op : OperationsLog) (t o : Int), op.total_orders = some t →
      op.on_time_deliveries = some o → 0 < t →
      op.on_time_percentage = some (pct2 o t)) ∧
    (∀ (state : List OperationsLog) (today now d : Nat) (b : String) (u : Nat),
      end_driver_request state today now d b 150 151 u =
        (.validationError, state)) ∧
    (∀ (d : Nat) (b : String) (t o : Int) (de : DriverEnd),
      DriverEnd.validate d b t o = some de →
      0 ≤ de.on_time_deliveries ∧ de.on_time_deliveries ≤ de.total_orders) := by
  refine ⟨?_, ?_, ?_, ?_⟩
  · intro op h1 h2
    simp only [OperationsLog.on_time_percentage, h1, h2]
    rw [if_pos (by norm_num)]
    norm_num
    decide
  · intro op t o h1 h2 ht
    simp only [OperationsLog.on_time_percentage, h1, h2]
    rw [if_pos ⟨by omega, ht⟩]
  · intro state today now d b u
    have hv : DriverEnd.validate d b 150 151 = none := by
      unfold DriverEnd.validate
      rw [if_neg (by norm_num), if_neg (by norm_num)]
      by_cases hb : b ∈ ALL_BATCHES
      · rw [if_neg (not_not_intro hb), if_pos (by norm_num)]
      · rw [if_pos hb]
    rw [end_driver_request, hv]
  · intro d b t o de hde
    unfold DriverEnd.validate at hde
    split_ifs at hde with h1 h2 h3 h4
    obtain rfl : de = ⟨d, b, t, o⟩ := by
      exact (Option.some.injEq _ _ ▸ hde).symm
    exact ⟨show (0 : Int) ≤ o by omega, show o ≤ t by omega⟩

/-- Witness for C8 at the concrete values from the spec. -/
theorem C8_driver_statistics_witness :
    OperationsLog.on_time_percentage
      { freshOp 5 "A" "Driver" with
        total_orders := some 150, on_time_deliveries := some 142 } =
      some 9467 :=
  C8_driver_statistics.1 _ rfl rfl

/-- C2: for any store satisfying the table constraints (unique key, valid
roles, completed implies started), `_calculate_batch_status` returns RED
exactly when `started_count = 0`; GREEN exactly when `started_count ≠ 0`
and `completed_count = 11`; otherwise YELLOW (RED, then GREEN, then
default YELLOW); and `progress_percentage = round(100*completed/11, 2)`
(in hundredths), which is `0` whenever `started_count = 0`. -/
theorem C2_batch_status_colors (state : List OperationsLog) (d : Nat)
    (b : String) (hU : UniqueKeys state) (hW : WellFormed state)
    (hV : ValidRoles state) :
    ((_calculate_batch_status state d b).status = "RED" ↔
      (_calculate_batch_status state d b).started_count = 0) ∧
    ((_calculate_batch_status state d b).status = "GREEN" ↔
      (_calculate_batch_status state d b).started_count ≠ 0 ∧
        (_calculate_batch_status state d b).completed_count = 11) ∧
    ((_calculate_batch_status state d b).status = "YELLOW" ↔
      (_calculate_batch_status state d b).started_count ≠ 0 ∧
        (_calculate_batch_status state d b).completed_count ≠ 11) ∧
    (_calculate_batch_status state d b).progress_percentage =
      pct2 ((_calculate_batch_status state d b).completed_count : Int) 11 ∧
    ((_calculate_batch_status state d b).started_count = 0 →
      (_calculate_batch_status state d b).progress_percentage = 0) ∧
    (_calculate_batch_status state d b).total_roles = 11 := by
  have htr : TOTAL_ROLES = 11 := rfl
  have hle : completed_count_q state d b ≤ 11 := by
    have := filter_batch_le_total hU hV d b (fun o => o.end_time.isSome)
    rw [htr] at this
    exact this
  have hcs : completed_count_q state d b ≤ started_count_q state d b :=
    completed_le_started hW d b
  rw [calc_status_eq, calc_started_eq, calc_completed_eq, calc_progress_eq,
    calc_total_roles_eq, htr]
  by_cases hsc : started_count_q state d b = 0
  · have hcc : completed_count_q state d b = 0 := by omega
    rw [if_pos hsc]
    refine ⟨iff_of_true rfl hsc, iff_of_false (by decide) (fun h => h.1 hsc),
      iff_of_false (by decide) (fun h => h.1 hsc), rfl, ?_, rfl⟩
    intro _
    rw [hcc]
    decide
  · rw [if_neg hsc]
    by_cases hcc : completed_count_q state d b ≥ 11
    · have hcc11 : completed_count_q state d b = 11 := by omega
      rw [if_pos hcc]
      exact ⟨iff_of_false (by decide) hsc, iff_of_true rfl ⟨hsc, hcc11⟩,
        iff_of_false (by decide) (fun h => h.2 hcc11), rfl,
        fun h => absurd h hsc, rfl⟩
    · have hne : completed_count_q state d b ≠ 11 := by omega
      rw [if_neg hcc]
      exact ⟨iff_of_false (by decide) hsc, iff_of_false (by decide) (fun h => hne h.2),
        iff_of_true rfl ⟨hsc, hne⟩, rfl, fun h => absurd h hsc, rfl⟩

/-- Witness for C2 at the empty store: status is RED iff nothing started. -/
theorem C2_batch_status_colors_witness :
    ((_calculate_batch_status ([] : List OperationsLog) 5 "A").status = "RED" ↔
      (_calculate_batch_status ([] : List OperationsLog) 5 "A").started_count = 0) ∧
    ((_calculate_batch_status ([] : List OperationsLog) 5 "A").started_count = 0 →
      (_calculate_batch_status ([] : List OperationsLog) 5 "A").progress_percentage = 0) :=
  ⟨(C2_batch_status_colors [] 5 "A" (by unfold UniqueKeys; decide)
      (by unfold WellFormed; decide) (by unfold ValidRoles; decide)).1,
    (C2_batch_status_colors [] 5 "A" (by unfold UniqueKeys; decide)
      (by unfold WellFormed; decide) (by unfold ValidRoles; decide)).2.2.2.2.1⟩

/-- C7 counterexample: on a past restricted day (date 1, a Monday, with
`today = 2`) a `start` of batch D fails with NOT_AVAILABLE, not READ_ONLY,
because the availability check runs before the past-date check. -/
theorem C7_counterexample :
    is_past_date 1 2 = true ∧
    start_operation ([] : List OperationsLog) 2 50 1 "D" "Procurement" 7 =
      (StartResult.notAvailable, []) ∧
    StartResult.notAvailable ≠ StartResult.readOnly := by decide

/-- C7 (amended): on a past date, `end` and `endDriver` always return
READ_ONLY with no write; `start` returns READ_ONLY with no write whenever
the batch is available for that date, and NOT_AVAILABLE (also with no
write) when it is not. -/
theorem C7_read_only_past_dates (state : List OperationsLog)
    (today now d : Nat) (b r : String) (u : Nat) (data : DriverEnd)
    (hpast : is_past_date d today = true)
    (hpast2 : is_past_date data.operation_date today = true) :
    end_operation state today now d b r u = (.readOnly, state) ∧
    end_driver_operation state today now data u = (.readOnly, state) ∧
    (b ∈ get_available_batches_for_date d →
      start_operation state today now d b r u = (.readOnly, state)) ∧
    (b ∉ get_available_batches_for_date d →
      start_operation state today now d b r u = (.notAvailable, state)) := by
  exact ⟨end_operation_read_only hpast, end_driver_read_only hpast2,
    fun hb => start_operation_read_only hb hpast,
    fun hb => start_operation_not_available hb⟩

/-- Witness for C7 at a concrete past date. -/
theorem C7_read_only_past_dates_witness :
    end_operation ([] : List OperationsLog) 2 50 1 "A" "Procurement" 7 =
      (EndResult.readOnly, []) :=
  (C7_read_only_past_dates [] 2 50 1 "A" "Procurement" 7
    ⟨1, "A", 10, 5⟩ (by decide) (by decide)).1

/-- C4 counterexample: starting the second role on an empty store — the
predecessor ("Procurement") exists in the sequence but its record is
absent — succeeds with NO warning, although the claim demands one for an
absent predecessor record. -/
theorem C4_counterexample :
    get_previous_role "Inventory QC - IN" = some "Procurement" ∧
    get_operation ([] : List OperationsLog) 5 "A" "Procurement" = none ∧
    is_past_date 5 5 = false ∧
    (start_operation ([] : List OperationsLog) 5 50 5 "A"
      "Inventory QC - IN" 7).1 = StartResult.started none := by decide

/-- C4 (amended): a successful `start` attaches the warning naming the
incomplete predecessor exactly when the previous role's record EXISTS and
is not completed; when the previous record is absent, or completed, or the
role is first in the sequence, no warning is attached; and under the start
preconditions the start always succeeds (the ordering is never a hard
gate). -/
theorem C4_start_warning (state : List OperationsLog) (today now d : Nat)
    (b r : String) (u : Nat)
    (h1 : b ∈ get_available_batches_for_date d)
    (h2 : is_past_date d today = false)
    (hstartable : get_operation state d b r = none ∨
      ∃ op, get_operation state d b r = some op ∧ op.start_time = none) :
    (start_operation state today now d b r u).1 =
      .started (start_warning state d b r) ∧
    (get_previous_role r = none → start_warning state d b r = none) ∧
    (∀ prev, get_previous_role r = some prev →
      (get_operation state d b prev = none →
        start_warning state d b r = none) ∧
      (∀ pop, get_operation state d b prev = some pop →
        (pop.end_time = none →
          start_warning state d b r =
            some ("Previous operation " ++ prev ++ " not completed yet")) ∧
        (pop.end_time ≠ none → start_warning state d b r = none))) := by
  refine ⟨?_, ?_, ?_⟩
  · rcases hstartable with hg | ⟨op, hg, hs⟩
    · rw [start_operation_starts_fresh h1 h2 hg, start_warning_append_fresh]
    · rw [start_operation_starts_existing h1 h2 hg hs]
  · intro hp
    simp [start_warning, hp]
  · intro prev hp
    constructor
    · intro hpg
      simp [start_warning, hp, hpg]
    · intro pop hpg
      constructor
      · intro hend
        simp [start_warning, hp, hpg, hend]
      · intro hend
        simp [start_warning, hp, hpg, hend]

/-- Witness for C4 at a concrete startable state. -/
theorem C4_start_warning_witness :
    (start_operation ([] : List OperationsLog) 5 50 5 "A" "Procurement" 7).1 =
      .started (start_warning ([] : List OperationsLog) 5 "A" "Procurement") :=
  (C4_start_warning [] 5 50 5 "A" "Procurement" 7 (by decide) (by decide)
    (Or.inl (by decide))).1

/-- C5 counterexample: on an empty store, `checkPreviousRole` for the
second role says `show_warning = true` (predecessor record absent), yet
`start` at the very same state succeeds with no warning — the two
verdicts disagree. -/
theorem C5_counterexample :
    (check_previous_role ([] : List OperationsLog) 5 "A"
      "Inventory QC - IN").show_warning = true ∧
    (check_previous_role ([] : List OperationsLog) 5 "A"
      "Inventory QC - IN").is_previous_completed = false ∧
    (start_operation ([] : List OperationsLog) 5 50 5 "A"
      "Inventory QC - IN" 7).1 = StartResult.started none := by decide

/-- C5 (amended): when the previous role's record EXISTS, the
`checkPreviousRole` verdict agrees with the warning `start` would attach
at the same state (`show_warning = true` iff the started result carries a
warning); the verdicts can disagree only on an absent predecessor record
(check warns, start does not); and for the first role in the sequence
`checkPreviousRole` always returns `is_previous_completed = true`,
`show_warning = false` and no message. -/
theorem C5_check_previous_role (state : List OperationsLog)
    (today now d : Nat) (b role : String) (u : Nat)
    (h1 : b ∈ get_available_batches_for_date d)
    (h2 : is_past_date d today = false)
    (hstartable : get_operation state d b role = none ∨
      ∃ op, get_operation state d b role = some op ∧ op.start_time = none) :
    (∀ prev pop, get_previous_role role = some prev →
      get_operation state d b prev = some pop →
      ((check_previous_role state d b role).show_warning = true ↔
        ∃ w, (start_operation state today now d b role u).1 =
          .started (some w))) ∧
    (get_previous_role role = none →
      check_previous_role state d b role =
        { current_role := role
          previous_role := none
          is_previous_completed := true
          show_warning := false
          warning_message := none }) := by
  have hc4 := C4_start_warning state today now d b role u h1 h2 hstartable
  constructor
  · intro prev pop hp hpg
    rw [hc4.1]
    have hgoal := (hc4.2.2 prev hp).2 pop hpg
    cases hend : pop.end_time with
    | none =>
      rw [hgoal.1 hend]
      simp [check_previous_role, hp, hpg, hend]
    | some e =>
      rw [hgoal.2 (by simp [hend])]
      simp [check_previous_role, hp, hpg, hend]
  · intro hp
    simp [check_previous_role, hp]

/-- Witness for C5 at a concrete state where the predecessor record
exists (created by starting the first role). -/
theorem C5_check_previous_role_witness :
    (check_previous_role
        (start_operation ([] : List OperationsLog) 5 50 5 "A" "Procurement" 7).2
        5 "A" "Inventory QC - IN").show_warning = true ↔
      ∃ w, (start_operation
        (start_operation ([] : List OperationsLog) 5 50 5 "A" "Procurement" 7).2
        5 60 5 "A" "Inventory QC - IN" 8).1 = .started (some w) :=
  (C5_check_previous_role
      (start_operation ([] : List OperationsLog) 5 50 5 "A" "Procurement" 7).2
      5 60 5 "A" "Inventory QC - IN" 8 (by decide) (by decide)
      (Or.inl (by decide))).1 "Procurement"
    { freshOp 5 "A" "Procurement" with
      start_time := some 50, started_by_user_id := some 7 }
    (by decide) (by decide)

/-- C6: on a non-read-only date and a well-formed store, `end` fails with
NOT_STARTED when the record is missing or unstarted, with the distinct
ALREADY_COMPLETED when `end_time` is already set, and a failing `end`
writes nothing; after a successful `end`, a second `end` returns
ALREADY_COMPLETED, leaves the store untouched, and the record keeps the
`end_time` and `completed_by` of the first call. -/
theorem C6_end_failure_kinds (state : List OperationsLog)
    (today now now' d : Nat) (b r : String) (u u' : Nat)
    (h2 : is_past_date d today = false) (hW : WellFormed state) :
    (get_operation state d b r = none →
      end_operation state today now d b r u = (.notStarted, state)) ∧
    (∀ op, get_operation state d b r = some op → op.start_time = none →
      end_operation state today now d b r u = (.notStarted, state)) ∧
    (∀ op, get_operation state d b r = some op → op.end_time.isSome →
      end_operation state today now d b r u = (.alreadyCompleted, state)) ∧
    (∀ op t, get_operation state d b r = some op → op.start_time = some t →
      op.end_time = none →
      end_operation state today now d b r u =
        (.completed none, replaceOp state d b r
          { op with end_time := some now, completed_by_user_id := some u }) ∧
      get_operation
          (replaceOp state d b r
            { op with end_time := some now, completed_by_user_id := some u })
          d b r =
        some { op with end_time := some now, completed_by_user_id := some u } ∧
      end_operation
          (replaceOp state d b r
            { op with end_time := some now, completed_by_user_id := some u })
          today now' d b r u' =
        (.alreadyCompleted,
          replaceOp state d b r
            { op with end_time := some now, completed_by_user_id := some u })) := by
  refine ⟨fun hg => end_operation_missing h2 hg, ?_, ?_, ?_⟩
  · intro op hg hs
    have hend : op.end_time = none := by
      cases he : op.end_time with
      | none => rfl
      | some e =>
        have := hW op (get_operation_mem hg) (by simp [he])
        rw [hs] at this
        simp at this
    exact end_operation_not_started h2 hg hend hs
  · intro op hg he
    exact end_operation_already_completed h2 hg he
  · intro op t hg hs he
    have hkey : keyOf
        { op with
          end_time := some now
          completed_by_user_id := some u } = (d, b, r) := by
      have := get_operation_key hg
      rw [keyOf] at this ⊢
      exact this
    have hget := get_operation_replaceOp_self hg hkey
    exact ⟨end_operation_completes h2 hg he hs, hget,
      end_operation_already_completed h2 hget (by simp)⟩

/-- Witness for C6: a missing record yields NOT_STARTED at the empty
store. -/
theorem C6_end_failure_kinds_witness :
    end_operation ([] : List OperationsLog) 5 50 5 "A" "Procurement" 7 =
      (EndResult.notStarted, []) :=
  (C6_end_failure_kinds [] 5 50 60 5 "A" "Procurement" 7 8 (by decide)
    (by unfold WellFormed; decide)).1 (by decide)

/-- The `initialize_batch` branch taken when the batch is available. -/
lemma initialize_batch_eq {state : List OperationsLog} {d : Nat} {b : String}
    (hAvail : is_batch_available d b = true) :
    initialize_batch state d b =
      (true, ROLE_ORDER.foldl (initStep d b) state) := by
  rw [initialize_batch, if_neg (by simp [hAvail])]

set_option maxHeartbeats 2000000 in
/-- C9: `initializeBatch` is idempotent — after one call every one of the
eleven roles has exactly one record, the roles it created are PENDING
(fresh rows), pre-existing records are untouched, and a second call with
the same arguments creates nothing, changes nothing, and still returns
success. -/
theorem C9_initialize_batch_idempotent (state : List OperationsLog)
    (d : Nat) (b : String) (hU : UniqueKeys state)
    (hAvail : is_batch_available d b = true) :
    (initialize_batch state d b).1 = true ∧
    UniqueKeys (initialize_batch state d b).2 ∧
    (∀ r ∈ ROLE_ORDER,
      (((initialize_batch state d b).2).filter (matchesKey d b r)).length = 1) ∧
    (∀ r ∈ ROLE_ORDER, get_operation state d b r = none →
      get_operation (initialize_batch state d b).2 d b r =
        some (freshOp d b r) ∧ (freshOp d b r).status = "PENDING") ∧
    (∀ r ∈ ROLE_ORDER, ∀ op, get_operation state d b r = some op →
      get_operation (initialize_batch state d b).2 d b r = some op) ∧
    initialize_batch (initialize_batch state d b).2 d b =
      (true, (initialize_batch state d b).2) := by
  rw [initialize_batch_eq hAvail]
  have hU' : UniqueKeys (ROLE_ORDER.foldl (initStep d b) state) :=
    foldl_initStep_unique ROLE_ORDER hU
  have hcover : ∀ r ∈ ROLE_ORDER,
      (get_operation (ROLE_ORDER.foldl (initStep d b) state) d b r).isSome := by
    intro r hr
    have hc := @get_operation_foldl_initStep_covers d b ROLE_ORDER state r hr
    cases hg : get_operation state d b r with
    | none => rw [hc.1 hg]; rfl
    | some op => rw [hc.2 op hg]; rfl
  refine ⟨rfl, hU', ?_, ?_, ?_, ?_⟩
  · intro r hr
    have hsome := hcover r hr
    cases hg : get_operation (ROLE_ORDER.foldl (initStep d b) state) d b r with
    | none => rw [hg] at hsome; simp at hsome
    | some op => rw [filter_matchesKey_eq_singleton hU' hg]; rfl
  · intro r hr hg
    exact ⟨(@get_operation_foldl_initStep_covers d b ROLE_ORDER state r hr).1 hg,
      rfl⟩
  · intro r hr op hg
    exact (@get_operation_foldl_initStep_covers d b ROLE_ORDER state r hr).2 op hg
  · rw [initialize_batch_eq hAvail,
      foldl_initStep_id ROLE_ORDER _ hcover]

/-- Witness for C9 at the empty store. -/
theorem C9_initialize_batch_idempotent_witness :
    initialize_batch (initialize_batch ([] : List OperationsLog) 5 "A").2 5 "A" =
      (true, (initialize_batch ([] : List OperationsLog) 5 "A").2) :=
  (C9_initialize_batch_idempotent [] 5 "A" (by unfold UniqueKeys; decide)
    (by decide)).2.2.2.2.2

/-- C1: every core operation — `start`, `end`, `endDriver` and
`initializeBatch` — preserves the at-most-one-record-per-triple
invariant, and a duplicate `start` on an already-started record is
rejected as an ALREADY_STARTED conflict exposing who started it and when,
leaving the store untouched. -/
theorem C1_unique_record_per_triple (state : List OperationsLog)
    (today now d : Nat) (b r : String) (u : Nat) (data : DriverEnd)
    (hU : UniqueKeys state) :
    UniqueKeys (start_operation state today now d b r u).2 ∧
    UniqueKeys (end_operation state today now d b r u).2 ∧
    UniqueKeys (end_driver_operation state today now data u).2 ∧
    UniqueKeys (initialize_batch state d b).2 ∧
    (∀ op t, get_operation state d b r = some op → op.start_time = some t →
      b ∈ get_available_batches_for_date d → is_past_date d today = false →
      start_operation state today now d b r u =
        (.alreadyStarted op.started_by_user_id t, state)) := by
  refine ⟨?_, ?_, ?_, ?_, ?_⟩
  · by_cases h1 : b ∈ get_available_batches_for_date d
    · cases h2 : is_past_date d today with
      | true => rw [start_operation_read_only h1 h2]; exact hU
      | false =>
        cases hg : get_operation state d b r with
        | none =>
          rw [start_operation_starts_fresh h1 h2 hg]
          exact (hU.append_fresh hg).replaceOp rfl
        | some op =>
          cases hs : op.start_time with
          | some t =>
            rw [start_operation_already_started h1 h2 hg hs]
            exact hU
          | none =>
            rw [start_operation_starts_existing h1 h2 hg hs]
            refine hU.replaceOp ?_
            have := get_operation_key hg
            rw [keyOf] at this ⊢
            exact this
    · rw [start_operation_not_available h1]; exact hU
  · cases h2 : is_past_date d today with
    | true => rw [end_operation_read_only h2]; exact hU
    | false =>
      cases hg : get_operation state d b r with
      | none => rw [end_operation_missing h2 hg]; exact hU
      | some op =>
        cases he : op.end_time with
        | some e =>
          rw [end_operation_already_completed h2 hg (by simp [he])]
          exact hU
        | none =>
          cases hs : op.start_time with
          | none => rw [end_operation_not_started h2 hg he hs]; exact hU
          | some t =>
            rw [end_operation_completes h2 hg he hs]
            refine hU.replaceOp ?_
            have := get_operation_key hg
            rw [keyOf] at this ⊢
            exact this
  · cases h2 : is_past_date data.operation_date today with
    | true => rw [end_driver_read_only h2]; exact hU
    | false =>
      cases hg : get_operation state data.operation_date data.batch
          DRIVER_ROLE with
      | none => rw [end_driver_missing h2 hg]; exact hU
      | some op =>
        cases he : op.end_time with
        | some e =>
          rw [end_driver_already_completed h2 hg (by simp [he])]
          exact hU
        | none =>
          cases hs : op.start_time with
          | none => rw [end_driver_not_started h2 hg he hs]; exact hU
          | some t =>
            rw [end_driver_completes h2 hg he hs]
            refine hU.replaceOp ?_
            have := get_operation_key hg
            rw [keyOf] at this ⊢
            exact this
  · cases hAvail : is_batch_available d b with
    | true =>
      rw [initialize_batch_eq hAvail]
      exact foldl_initStep_unique ROLE_ORDER hU
    | false =>
      rw [initialize_batch, if_pos (by simp [hAvail])]
      exact hU
  · intro op t hg hs h1 h2
    exact start_operation_already_started h1 h2 hg hs

/-- Witness for C1: starting the same role twice conflicts and writes
nothing the second time. -/
theorem C1_unique_record_per_triple_witness :
    start_operation
        (start_operation ([] : List OperationsLog) 5 50 5 "A" "Procurement" 7).2
        5 60 5 "A" "Procurement" 8 =
      (.alreadyStarted (some 7) 50,
        (start_operation ([] : List OperationsLog) 5 50 5 "A" "Procurement" 7).2) :=
  (C1_unique_record_per_triple
      (start_operation ([] : List OperationsLog) 5 50 5 "A" "Procurement" 7).2
      5 60 5 "A" "Procurement" 8 ⟨1, "A", 10, 5⟩
      (by unfold UniqueKeys; decide)).2.2.2.2
    { freshOp 5 "A" "Procurement" with
      start_time := some 50, started_by_user_id := some 7 }
    50 (by decide) (by decide) (by decide) (by decide)

/-- C10: in the daily summary, a Driver record contributes to the delivery
totals only when its `total_orders` is non-null and non-zero: with
non-negative stored counters (guaranteed by the `ge=0` schema bounds),
when no Driver record of the day has positive `total_orders` both
delivery totals are reported as absent; they are never reported as
`some 0`; and a Driver record with `total_orders = 0` (or null) adds
exactly as much as no record at all. -/
theorem C10_daily_summary_driver_totals (state : List OperationsLog) (d : Nat)
    (hnn : ∀ op ∈ state, ∀ t, op.total_orders = some t → 0 ≤ t) :
    ((∀ b ∈ get_available_batches_for_date d, ∀ op,
        get_operation state d b DRIVER_ROLE = some op →
        ∀ t, op.total_orders = some t → ¬ 0 < t) →
      (get_daily_summary state d).total_orders_delivered = none ∧
      (get_daily_summary state d).total_on_time_deliveries = none) ∧
    (get_daily_summary state d).total_orders_delivered ≠ some 0 ∧
    (get_daily_summary state d).total_on_time_deliveries ≠ some 0 ∧
    (∀ op : OperationsLog, op.total_orders = some 0 ∨ op.total_orders = none →
      driverContribution (some op) = driverContribution none) := by
  refine ⟨?_, ?_, ?_, ?_⟩
  · intro hnopos
    have hzero : ∀ b ∈ get_available_batches_for_date d,
        driverContribution (get_operation state d b DRIVER_ROLE) = (0, 0) := by
      intro b hb
      cases hg : get_operation state d b DRIVER_ROLE with
      | none => rfl
      | some op =>
        cases ht : op.total_orders with
        | none => simp [driverContribution, ht]
        | some t =>
          have h0 : t = 0 := by
            have := hnn op (get_operation_mem hg) t ht
            have := hnopos b hb op hg t ht
            omega
          subst h0
          simp [driverContribution, ht]
    have horders : daily_total_orders state d = 0 := by
      apply List.sum_eq_zero
      intro x hx
      rw [List.mem_map] at hx
      obtain ⟨b, hb, rfl⟩ := hx
      rw [hzero b hb]
    have hontime : daily_total_on_time state d = 0 := by
      apply List.sum_eq_zero
      intro x hx
      rw [List.mem_map] at hx
      obtain ⟨b, hb, rfl⟩ := hx
      rw [hzero b hb]
    rw [daily_orders_eq, daily_on_time_eq, horders, hontime]
    exact ⟨by norm_num, by norm_num⟩
  · rw [daily_orders_eq]
    by_cases h : daily_total_orders state d > 0
    · rw [if_pos h]
      intro hc
      rw [Option.some.injEq] at hc
      omega
    · rw [if_neg h]
      exact Option.noConfusion
  · rw [daily_on_time_eq]
    by_cases h : daily_total_on_time state d > 0
    · rw [if_pos h]
      intro hc
      rw [Option.some.injEq] at hc
      omega
    · rw [if_neg h]
      exact Option.noConfusion
  · intro op hop
    rcases hop with ht | ht <;> simp [driverContribution, ht]

/-- Witness for C10 at a store whose only Driver record is completed with
`total_orders = 0`: both delivery totals are absent. -/
theorem C10_daily_summary_driver_totals_witness :
    (get_daily_summary
        [{ freshOp 3 "A" "Driver" with
            start_time := some 10, end_time := some 20,
            total_orders := some 0, on_time_deliveries := some 0 }]
        3).total_orders_delivered = none ∧
    (get_daily_summary
        [{ freshOp 3 "A" "Driver" with
            start_time := some 10, end_time := some 20,
            total_orders := some 0, on_time_deliveries := some 0 }]
        3).total_on_time_deliveries = none :=
  (C10_daily_summary_driver_totals
      [{ freshOp 3 "A" "Driver" with
          start_time := some 10, end_time := some 20,
          total_orders := some 0, on_time_deliveries := some 0 }]
      3 (by decide)).1 (by decide)

end PallyOps
